import Mathlib

/-!
Shallow embedding of the ctf-agent sandboxed execution core
(`src/ctf_agent/orchestrator.py`, `src/ctf_agent/actions.py`,
`src/ctf_agent/local/runner.py`).

Modelling conventions:
* Paths and file contents are `String`s.  Path canonicalisation
  (`Path.resolve()`, which follows symlinks and eliminates dot-dots) is an
  abstract function `Fs.resolve` supplied by the environment.
* Filesystem reads and process spawns are oracles carried by a `World`
  value; each runner operation additionally returns the list of
  filesystem/process effects it performed (`Event`), so that claims of the
  form "performs no read / spawns no process" are statable.
* A Python exception escaping a function is modelled by `Except.error msg`;
  a normal return is `Except.ok`.
* Python truthiness of optional strings is modelled explicitly
  (`none` and the empty string are falsy).
-/

/- ------------------------------------------------------------------ -/
/- Character/string helpers mirroring the Python string operations     -/
/- ------------------------------------------------------------------ -/

def lbrace : Char := Char.ofNat 123

def rbrace : Char := Char.ofNat 125

/-- Does the second list start with the first (pattern) list?  Models
Python's `str.startswith` once lifted to `String`. -/
def leadsWith : List Char → List Char → Bool
  | [], _ => true
  | _ :: _, [] => false
  | a :: as, b :: bs => a == b && leadsWith as bs

/-- Substring containment: does `pat` occur anywhere in the second list?
Models Python's `tok in s`. -/
def containsSubList (pat : List Char) : List Char → Bool
  | [] => pat.isEmpty
  | b :: bs => leadsWith pat (b :: bs) || containsSubList pat bs

def strStartsWith (s pat : String) : Bool := leadsWith pat.data s.data

def strEndsWith (s pat : String) : Bool := leadsWith pat.data.reverse s.data.reverse

def strLower (s : String) : String := String.mk (s.data.map Char.toLower)

def strContains (s pat : String) : Bool := containsSubList pat.data s.data

def takeStr (n : Nat) (s : String) : String := String.mk (s.data.take n)

/- ------------------------------------------------------------------ -/
/- Flag scanner: FLAG_RE = flag{[^}\n]+} | ctf{[^}\n]+} |              -/
/-   picoCTF{[^}\n]+}, case-insensitive, first (leftmost) match wins.  -/
/- ------------------------------------------------------------------ -/

/-- Lower-cased tag prefixes of the three regex alternatives, in the
alternation order of `FLAG_RE`. -/
def flagTag1 : List Char := ['f', 'l', 'a', 'g', lbrace]

def flagTag2 : List Char := ['c', 't', 'f', lbrace]

def flagTag3 : List Char := ['p', 'i', 'c', 'o', 'c', 't', 'f', lbrace]

/-- Consume `[^}\n]*` followed by a closing brace; returns the body and the
remainder after the closing brace.  `none` when a newline or the end of
input is reached before a closing brace. -/
def flagBody : List Char → Option (List Char × List Char)
  | [] => none
  | c :: cs =>
    if c == rbrace then some ([], cs)
    else if c == '\n' then none
    else
      match flagBody cs with
      | some (b, r) => some (c :: b, r)
      | none => none

/-- Try to match one regex alternative (given by its lowered tag) at the
start of `s`; the matched text keeps the original casing, as `m.group(0)`
does. -/
def tryTag (tag : List Char) (s : List Char) : Option (List Char) :=
  if leadsWith tag (s.map Char.toLower) then
    match flagBody (s.drop tag.length) with
    | some (b, _) => if b.isEmpty then none else some (s.take tag.length ++ b ++ [rbrace])
    | none => none
  else none

/-- Try the three alternatives, in the order they appear in `FLAG_RE`. -/
def tryMatchAt (s : List Char) : Option (List Char) :=
  match tryTag flagTag1 s with
  | some m => some m
  | none =>
    match tryTag flagTag2 s with
    | some m => some m
    | none => tryTag flagTag3 s

def findFlagList : List Char → Option (List Char)
  | [] => none
  | c :: cs =>
    match tryMatchAt (c :: cs) with
    | some m => some m
    | none => findFlagList cs

/-- Models `find_flag` of orchestrator.py: leftmost case-insensitive match
of `FLAG_RE`, returning the matched text. -/
def find_flag (t : String) : Option String := (findFlagList t.data).map String.mk

/-- Python's `find_flag(a) or find_flag(b)` combinator. -/
def orFlag (a b : Option String) : Option String :=
  match a with
  | some x => some x
  | none => b

/- ------------------------------------------------------------------ -/
/- Data model of the Runner                                            -/
/- ------------------------------------------------------------------ -/

/-- Decidable equality for `Except`, so that concrete runner outcomes can
be evaluated by `decide`. -/
instance instDecEqExcept {ε α : Type} [DecidableEq ε] [DecidableEq α] :
    DecidableEq (Except ε α) := fun a b =>
  match a, b with
  | Except.ok x, Except.ok y =>
    if h : x = y then Decidable.isTrue (congrArg Except.ok h)
    else Decidable.isFalse (fun hc => h (Except.ok.inj hc))
  | Except.error x, Except.error y =>
    if h : x = y then Decidable.isTrue (congrArg Except.error h)
    else Decidable.isFalse (fun hc => h (Except.error.inj hc))
  | Except.ok _, Except.error _ => Decidable.isFalse (fun hc => Except.noConfusion hc)
  | Except.error _, Except.ok _ => Decidable.isFalse (fun hc => Except.noConfusion hc)

/-- Models the `RunResult` dataclass of orchestrator.py. -/
structure RunResult where
  ok : Bool
  stdout : String
  stderr : String
  timeout : Bool := false
  flag : Option String := none
deriving DecidableEq

/-- A request handed to `subprocess.run` by `run_cmd`. -/
structure SpawnReq where
  cmd : List String
  timeoutS : Nat
  cwd : String
  env : List (String × String)
deriving DecidableEq

/-- Outcome of a `subprocess.run` call with a timeout: normal completion,
`TimeoutExpired` (with the partial output captured before expiry, either
stream possibly `None`), or some other exception. -/
inductive ProcOutcome where
  | completed (returncode : Int) (stdout stderr : String)
  | timedOut (stdout stderr : Option String)
  | raised (msg : String)
deriving DecidableEq

/-- Outcome of a `subprocess.run` call without a timeout argument (the raw
`sudo apt update` call inside `install`). -/
inductive RawOutcome where
  | completed (returncode : Int) (stdout stderr : String)
  | raised (msg : String)
deriving DecidableEq

/-- Filesystem/process effects performed by a runner operation. -/
inductive Event where
  | readFile (p : String)
  | spawn (cmd : List String)
deriving DecidableEq

/-- The filesystem as seen by the runner: `resolve` canonicalises a path
(symlinks, dot-dots, absolute overrides), `read` returns the decoded
content of a file or the message of the exception raised by
`Path.read_bytes`, `files` is the sorted relative-path inventory produced
by `rglob`. -/
structure Fs where
  resolve : String → String
  read : String → Except String String
  files : List String

/-- The ambient host environment: spawn oracles, the process environment,
and the facts `_detect_host` / `shutil.which` report. -/
structure World where
  fs : Fs
  spawn : SpawnReq → ProcOutcome
  rawRun : List String → RawOutcome
  baseEnv : List (String × String)
  hostOS : String
  aptPresent : Bool
  brewPresent : Bool

/-- The immutable configuration of `LocalRunner` (orchestrator.py);
`challenge_dir` and `work_dir` are already canonicalised, as `__init__`
resolves both. -/
structure RunnerCfg where
  challenge_dir : String
  work_dir : String
  allow_network : Bool
  allow_install : Bool
  cmd_allowlist : List String
  install_allowlist : List String

def DEFAULT_CMD_ALLOWLIST : List String :=
  ["file", "strings", "xxd", "hexdump", "unzip", "7z", "tar", "jq", "python3", "python"]

def DEFAULT_INSTALL_ALLOWLIST : List String :=
  ["binutils", "p7zip-full", "unzip", "jq", "exiftool", "tshark", "binwalk"]

/-- The network-indicating substrings, in source order (Python iterates a
set, whose order is unspecified; no claim depends on the order). -/
def NETWORK_TOKENS : List String :=
  ["curl", "wget", "nc", "netcat", "ssh", "telnet", "nmap", "http", "https"]

/-- Split a character list on slash separators. -/
def splitOnSlash : List Char → List (List Char)
  | [] => [[]]
  | c :: cs =>
    let r := splitOnSlash cs
    if c == '/' then [] :: r
    else
      match r with
      | [] => [[c]]
      | h :: t => (c :: h) :: t

/-- Models `Path(x).name`: the last non-empty path component. -/
def pathName (s : String) : String :=
  match ((splitOnSlash s.data).filter (fun c => !c.isEmpty)).getLast? with
  | some l => String.mk l
  | none => ""

/-- Models `pathlib`'s `/` join: an absolute right operand replaces the
base. -/
def pathJoin (base rel : String) : String :=
  if strStartsWith rel "/" then rel else base ++ "/" ++ rel

/-- The working directory `run_cmd` spawns in. -/
def cwdOf (cfg : RunnerCfg) (cwdRel : Option String) : String :=
  match cwdRel with
  | none => cfg.work_dir
  | some r => cfg.work_dir ++ "/" ++ r

/-- `os.environ.copy()` followed by `update(env)`. -/
def mergeEnv (base env : List (String × String)) : List (String × String) :=
  (base.filter (fun kv => env.all (fun kv2 => kv2.1 ≠ kv.1))) ++ env

/- ------------------------------------------------------------------ -/
/- Runner operations (LocalRunner of orchestrator.py)                  -/
/- ------------------------------------------------------------------ -/

/-- Models `LocalRunner.list_files`. -/
def list_files (_cfg : RunnerCfg) (w : World) : Except String RunResult × List Event :=
  let files := w.fs.files
  let out := String.intercalate "\n" files ++ (if files.isEmpty then "" else "\n")
  (Except.ok ⟨true, out, "", false, none⟩, [])

/-- Models `LocalRunner.read_file_head`: resolve the candidate, apply the
string-prefix confinement check against the (resolved) challenge root,
then read at most `maxBytes`, decode permissively and scan for a flag.
The read itself may raise (no try/except in the source). -/
def read_file_head (cfg : RunnerCfg) (w : World) (relpath : String) (maxBytes : Nat) :
    Except String RunResult × List Event :=
  let p := w.fs.resolve (pathJoin cfg.challenge_dir relpath)
  if !(strStartsWith p cfg.challenge_dir) then
    (Except.ok ⟨false, "", "path escape blocked", false, none⟩, [])
  else
    match w.fs.read p with
    | Except.error m => (Except.error m, [Event.readFile p])
    | Except.ok data =>
      let txt := takeStr maxBytes data
      (Except.ok ⟨true, txt, "", false, find_flag txt⟩, [Event.readFile p])

/-- Models `LocalRunner._check_cmd`: empty guard, allowlist check on the
basename of the first token, then the coarse network-token scan. -/
def _check_cmd (cfg : RunnerCfg) (cmd : List String) : Bool × String :=
  match cmd with
  | [] => (false, "empty cmd")
  | c0 :: _ =>
    let bin := pathName c0
    if !(cfg.cmd_allowlist.contains bin) then (false, "cmd not allowed: " ++ bin)
    else if !cfg.allow_network then
      let s := strLower (String.intercalate " " cmd)
      match NETWORK_TOKENS.find? (fun tok => strContains s tok) with
      | some tok => (false, "network token blocked: " ++ tok)
      | none => (true, "")
    else (true, "")

/-- Models `LocalRunner.run_cmd`: policy check first (no spawn on
failure), then a single spawn; `TimeoutExpired` is caught and converted,
any other exception propagates. -/
def runCmd (cfg : RunnerCfg) (w : World) (cmd : List String) (timeoutS : Nat)
    (cwdRel : Option String) (env : List (String × String)) :
    Except String RunResult × List Event :=
  let chk := _check_cmd cfg cmd
  if !chk.1 then
    (Except.ok ⟨false, "", chk.2, false, none⟩, [])
  else
    let req : SpawnReq := ⟨cmd, timeoutS, cwdOf cfg cwdRel, mergeEnv w.baseEnv env⟩
    match w.spawn req with
    | ProcOutcome.completed rc out err =>
      (Except.ok ⟨rc == 0, out, err, false, orFlag (find_flag out) (find_flag err)⟩,
       [Event.spawn cmd])
    | ProcOutcome.timedOut o e =>
      let out := o.getD ""
      let err := e.getD ""
      (Except.ok ⟨false, out, err, true, orFlag (find_flag out) (find_flag err)⟩,
       [Event.spawn cmd])
    | ProcOutcome.raised m => (Except.error m, [Event.spawn cmd])

/-- Models `LocalRunner.run_python`. -/
def run_python (cfg : RunnerCfg) (w : World) (code : String) (timeoutS : Nat) :
    Except String RunResult × List Event :=
  let py := if cfg.cmd_allowlist.contains "python3" then "python3" else "python"
  runCmd cfg w [py, "-c", code] timeoutS none []

/-- Models `LocalRunner.extract_archive`: same confinement check as
`read_file_head`, then suffix dispatch to an extraction command run via
`runCmd` with output under the scratch area. -/
def extract_archive (cfg : RunnerCfg) (w : World) (relpath : String) (timeoutS : Nat) :
    Except String RunResult × List Event :=
  let src := w.fs.resolve (pathJoin cfg.challenge_dir relpath)
  if !(strStartsWith src cfg.challenge_dir) then
    (Except.ok ⟨false, "", "path escape blocked", false, none⟩, [])
  else
    let outdir := cfg.work_dir ++ "/extracted"
    let low := strLower relpath
    if strEndsWith low ".zip" then
      runCmd cfg w ["unzip", "-o", src, "-d", outdir] timeoutS none []
    else if strEndsWith low ".7z" then
      runCmd cfg w ["7z", "x", "-y", "-o" ++ outdir, src] timeoutS none []
    else if strEndsWith low ".tar" || strEndsWith low ".tar.gz" || strEndsWith low ".tgz" then
      runCmd cfg w ["tar", "-xf", src, "-C", outdir] timeoutS none []
    else
      (Except.ok ⟨false, "", "unknown archive type", false, none⟩, [])

/-- Models `LocalRunner.install`: install gate, package allowlist (first
offender reported), host dispatch; on linux a raw `sudo apt update`
followed by `sudo apt install -y ...` routed through `runCmd`. -/
def install (cfg : RunnerCfg) (w : World) (packages : List String) (timeoutS : Nat) :
    Except String RunResult × List Event :=
  if !cfg.allow_install then
    (Except.ok ⟨false, "", "install blocked (enable --allow-install)", false, none⟩, [])
  else
    match packages.find? (fun p => !(cfg.install_allowlist.contains p)) with
    | some p => (Except.ok ⟨false, "", "package not allowed: " ++ p, false, none⟩, [])
    | none =>
      if w.hostOS = "linux" then
        if !w.aptPresent then
          (Except.ok ⟨false, "", "apt not found on this linux host", false, none⟩, [])
        else
          match w.rawRun ["sudo", "apt", "update"] with
          | RawOutcome.raised m => (Except.error m, [Event.spawn ["sudo", "apt", "update"]])
          | RawOutcome.completed rc out err =>
            if rc != 0 then
              (Except.ok ⟨false, out, err, false, none⟩, [Event.spawn ["sudo", "apt", "update"]])
            else
              let r := runCmd cfg w (["sudo", "apt", "install", "-y"] ++ packages) timeoutS none []
              (r.1, Event.spawn ["sudo", "apt", "update"] :: r.2)
      else if w.hostOS = "darwin" then
        if !w.brewPresent then
          (Except.ok ⟨false, "", "brew not found on macOS", false, none⟩, [])
        else
          runCmd cfg w (["brew", "install"] ++ packages) timeoutS none []
      else
        (Except.ok ⟨false, "", "unsupported OS for install: " ++ w.hostOS, false, none⟩, [])

/- ------------------------------------------------------------------ -/
/- Action validator (actions.py)                                       -/
/- ------------------------------------------------------------------ -/

/-- A JSON-ish value, as found in an untrusted action descriptor.  The
validator only ever tests the outer shape (`isinstance(..., list)` /
`isinstance(..., str)`), so list elements are modelled as the strings a
command token sequence carries. -/
inductive JVal where
  | jnull
  | jbool (b : Bool)
  | jnum (n : Int)
  | jstr (s : String)
  | jlist (xs : List String)
deriving DecidableEq

/-- The keys of a raw action descriptor that `validate_action` inspects;
`none` models an absent key (Python `dict.get` returning `None`). -/
structure RawAction where
  type : Option JVal := none
  cmd : Option JVal := none
  code : Option JVal := none
deriving DecidableEq

/-- `ALLOWED_ACTIONS` of actions.py. -/
def ALLOWED_ACTIONS : List String :=
  ["list_files", "read_file_head", "run_cmd", "run_python", "extract_archive", "stop"]

/-- Python `t in ALLOWED_ACTIONS` for a set of strings: only a string value
can be a member. -/
def jvalStrIn (v : Option JVal) (ss : List String) : Bool :=
  match v with
  | some (JVal.jstr s) => ss.contains s
  | _ => false

def isJList : Option JVal → Bool
  | some (JVal.jlist _) => true
  | _ => false

def isJStr : Option JVal → Bool
  | some (JVal.jstr _) => true
  | _ => false

/-- Display used in the unknown-kind error message. -/
def jvalShow : Option JVal → String
  | none => "None"
  | some JVal.jnull => "None"
  | some (JVal.jbool b) => if b then "True" else "False"
  | some (JVal.jnum n) => toString n
  | some (JVal.jstr s) => s
  | some (JVal.jlist _) => "[...]"

/-- Models `validate_action` of actions.py; `Except.error` models the
raised `ValueError`. -/
def validate_action (a : RawAction) : Except String Unit :=
  if !(jvalStrIn a.type ALLOWED_ACTIONS) then
    Except.error ("Action not allowed: " ++ jvalShow a.type)
  else if a.type == some (JVal.jstr "run_cmd") && !(isJList a.cmd) then
    Except.error "run_cmd requires cmd: [..]"
  else if a.type == some (JVal.jstr "run_python") && !(isJStr a.code) then
    Except.error "run_python requires code: str"
  else Except.ok ()

/- ------------------------------------------------------------------ -/
/- Orchestration loop (run_hybrid_llm_local_exec of orchestrator.py)   -/
/- ------------------------------------------------------------------ -/

/-- The fields of the manager decision the loop inspects. -/
structure MgrMsg where
  objective : Option String := none
  stop : Bool := false
  final_flag : Option String := none
  instruction : String := ""
deriving DecidableEq

/-- The fields of the action dict the loop and the runner dispatch read,
after the loop's own coercions (`str(...)`, `int(...)`, list filtering).
`timeout_s` is `none` when absent so each branch can apply its own
default (10/10/20/120). -/
structure ActionDesc where
  type : Option String := none
  target : String := ""
  max_bytes : Nat := 250000
  cmd : List String := []
  code : String := ""
  timeout_s : Option Nat := none
  cwd : Option String := none
  env : List (String × String) := []
  packages : List String := []
  flag : Option String := none
deriving DecidableEq

def emptyAction : ActionDesc := {}

/-- The fields of the hacker response the loop inspects; `flag` is `some`
only when `h.get("flag")` is a string (the `isinstance` check). -/
structure HackerMsg where
  flag : Option String := none
  action : Option ActionDesc := none
  note : Option String := none
deriving DecidableEq

/-- One loop iteration's external inputs: the two provider responses and
the host environment the runner executes against. -/
structure StepInput where
  mgr : MgrMsg
  hacker : HackerMsg
  world : World

/-- Summary of a record appended to `state["steps"]`. -/
inductive StepRec where
  | managerStop (flag : String)
  | hackerFoundDirect (flag : String)
  | stopStep (action : ActionDesc)
  | execStep (action : ActionDesc) (ok : Bool) (timedOut : Bool) (flag : Option String)
deriving DecidableEq

/-- `state["last_exec"]`, with the 2000-character previews. -/
structure LastExec where
  ok : Bool
  timedOut : Bool
  stdout_preview : String
  stderr_preview : String
  flag : Option String
deriving DecidableEq

/-- The mutable session state of the loop.  The Python state dict never
gains a `"done"` key, so `state.get("done", {})` always yields the empty
mapping; the `done` field records the (kind, target) pairs of that
mapping. -/
structure AgentState where
  found_flag : Option String := none
  objective : Option String := none
  steps : List StepRec := []
  done : List (String × String) := []
  last_exec : Option LastExec := none
deriving DecidableEq

def initState : AgentState := {}

/-- Python truthiness of an optional string. -/
def truthyStr : Option String → Bool
  | some s => !s.isEmpty
  | none => false

/-- The flag the manager-stop branch records: the condition
`m.get("stop") and m.get("final_flag")` of the source. -/
def mgrStopFlag (m : MgrMsg) : Option String :=
  if m.stop && truthyStr m.final_flag then m.final_flag else none

/-- `FLAG_PREFIXES` of orchestrator.py (case-sensitive `startswith`). -/
def FLAG_PREFIXES : List String := ["flag\x7b", "ctf\x7b", "picoCTF\x7b"]

def startsWithAnyOf (s : String) (ps : List String) : Bool :=
  ps.any (fun p => strStartsWith s p)

/-- The hacker-found-direct condition of the source:
`isinstance(h.get("flag"), str) and h["flag"].startswith(FLAG_PREFIXES)`. -/
def hackerDirectFlag (h : HackerMsg) : Option String :=
  match h.flag with
  | some s => if startsWithAnyOf s FLAG_PREFIXES then some s else none
  | none => none

/-- The flag check inside the stop-action branch. -/
def stopActionFlag (a : ActionDesc) : Option String :=
  match a.flag with
  | some s => if startsWithAnyOf s FLAG_PREFIXES then some s else none
  | none => none

/-- The action kinds the loop's dispatch executes via the runner. -/
def KNOWN_EXEC_TYPES : List String :=
  ["list_files", "read_file_head", "run_cmd", "run_python", "extract_archive", "install"]

/-- The `try`-block dispatch of the loop: one runner call per kind, with
the per-kind timeout defaults of the source; an unknown kind yields the
failed `unknown action.type` result without touching the runner. -/
def execAction (cfg : RunnerCfg) (w : World) (a : ActionDesc) : Except String RunResult :=
  match a.type with
  | some t =>
    if t = "list_files" then (list_files cfg w).1
    else if t = "read_file_head" then (read_file_head cfg w a.target a.max_bytes).1
    else if t = "run_cmd" then (runCmd cfg w a.cmd (a.timeout_s.getD 10) a.cwd a.env).1
    else if t = "run_python" then (run_python cfg w a.code (a.timeout_s.getD 10)).1
    else if t = "extract_archive" then (extract_archive cfg w a.target (a.timeout_s.getD 20)).1
    else if t = "install" then (install cfg w a.packages (a.timeout_s.getD 120)).1
    else Except.ok ⟨false, "", "unknown action.type: " ++ t, false, none⟩
  | none => Except.ok ⟨false, "", "unknown action.type: None", false, none⟩

/-- The loop's `try ... except Exception` around the dispatch: any
exception becomes `RunResult(False, "", "execution error: ...")`. -/
def execWrapped (cfg : RunnerCfg) (w : World) (a : ActionDesc) : RunResult :=
  match execAction cfg w a with
  | Except.ok r => r
  | Except.error m => ⟨false, "", "execution error: " ++ m, false, none⟩

/-- One iteration of the `for _ in range(max_steps)` body.  The returned
`Bool` is `true` when the iteration executes `break`. -/
def loopStep (cfg : RunnerCfg) (inp : StepInput) (st : AgentState) : AgentState × Bool :=
  let st1 := { st with objective := inp.mgr.objective }
  match mgrStopFlag inp.mgr with
  | some f =>
    ({ st1 with found_flag := some f, steps := st1.steps ++ [StepRec.managerStop f] }, true)
  | none =>
    match hackerDirectFlag inp.hacker with
    | some f =>
      ({ st1 with found_flag := some f,
                  steps := st1.steps ++ [StepRec.hackerFoundDirect f] }, true)
    | none =>
      let a := inp.hacker.action.getD emptyAction
      if a.type = some "stop" then
        match stopActionFlag a with
        | some f =>
          ({ st1 with found_flag := some f, steps := st1.steps ++ [StepRec.stopStep a] }, true)
        | none => ({ st1 with steps := st1.steps ++ [StepRec.stopStep a] }, true)
      else
        let r := execWrapped cfg inp.world a
        let st2 := { st1 with
          steps := st1.steps ++ [StepRec.execStep a r.ok r.timeout r.flag],
          last_exec := some ⟨r.ok, r.timeout, takeStr 2000 r.stdout, takeStr 2000 r.stderr,
                             r.flag⟩ }
        match r.flag with
        | some f => ({ st2 with found_flag := some f }, true)
        | none => (st2, false)

/-- The loop over the (at most `max_steps`) per-iteration inputs; an input
list of length `max_steps` models the `range(max_steps)` budget. -/
def loopRun (cfg : RunnerCfg) : List StepInput → AgentState → AgentState
  | [], st => st
  | inp :: rest, st =>
    if (loopStep cfg inp st).2 then (loopStep cfg inp st).1
    else loopRun cfg rest (loopStep cfg inp st).1

/-- The sequence of states observed at the top of each iteration, ending
with the final state. -/
def loopTrace (cfg : RunnerCfg) : List StepInput → AgentState → List AgentState
  | [], st => [st]
  | inp :: rest, st =>
    if (loopStep cfg inp st).2 then [st, (loopStep cfg inp st).1]
    else st :: loopTrace cfg rest (loopStep cfg inp st).1

/-- A full session from the freshly initialised state. -/
def runSession (cfg : RunnerCfg) (inputs : List StepInput) : AgentState :=
  loopRun cfg inputs initState

/-- An iteration input that takes none of the stopping branches: the
manager does not stop with a flag, the hacker reports no direct flag, the
action is not `stop`, and the executed action detects no flag. -/
def nonStopping (cfg : RunnerCfg) (inp : StepInput) : Bool :=
  (mgrStopFlag inp.mgr).isNone &&
  (hackerDirectFlag inp.hacker).isNone &&
  !(decide ((inp.hacker.action.getD emptyAction).type = some "stop")) &&
  (execWrapped cfg inp.world (inp.hacker.action.getD emptyAction)).flag.isNone

/- ------------------------------------------------------------------ -/
/- Concrete fixtures used by witnesses and counterexamples             -/
/- ------------------------------------------------------------------ -/

/-- A session configuration with the default allowlists. -/
def cfgX : RunnerCfg :=
  { challenge_dir := "/ch", work_dir := "/work", allow_network := false,
    allow_install := false, cmd_allowlist := DEFAULT_CMD_ALLOWLIST,
    install_allowlist := DEFAULT_INSTALL_ALLOWLIST }

def cfgInstall : RunnerCfg := { cfgX with allow_install := true }

/-- A benign filesystem: canonicalisation is the identity and every read
returns a small flag-free text. -/
def trivFs : Fs := { resolve := fun s => s, read := fun _ => Except.ok "hello", files := [] }

def trivWorld : World :=
  { fs := trivFs, spawn := fun _ => ProcOutcome.completed 0 "" "",
    rawRun := fun _ => RawOutcome.completed 0 "" "", baseEnv := [],
    hostOS := "linux", aptPresent := true, brewPresent := false }

/-- A world where canonicalisation lands every candidate outside the
challenge root (e.g. a symlink to /etc/passwd). -/
def escWorld : World :=
  { trivWorld with fs := { trivFs with resolve := fun _ => "/etc/passwd" } }

/-- A world whose reads raise, as `Path.read_bytes` does on a missing
file. -/
def missingWorld : World :=
  { trivWorld with
    fs := { trivFs with read := fun _ => Except.error "FileNotFoundError: missing.txt" } }

/-- A world where every spawn runs into the timeout with some partial
stdout captured. -/
def timeoutWorld : World :=
  { trivWorld with spawn := fun _ => ProcOutcome.timedOut (some "partial out") none }

def readAction : ActionDesc := { type := some "read_file_head", target := "a.txt" }

def bogusAction : ActionDesc := { type := some "open_portal" }

def stopFlagAction : ActionDesc := { type := some "stop", flag := some "flag\x7bx\x7d" }

def aMissing : ActionDesc := { type := some "read_file_head", target := "missing.txt" }

def quietMgr : MgrMsg := {}

def inpRead : StepInput :=
  { mgr := quietMgr, hacker := { action := some readAction }, world := trivWorld }

def inpBogus : StepInput :=
  { mgr := quietMgr, hacker := { action := some bogusAction }, world := trivWorld }

def inpStop : StepInput :=
  { mgr := quietMgr, hacker := { action := some stopFlagAction }, world := trivWorld }

def inpMissing : StepInput :=
  { mgr := quietMgr, hacker := { action := some aMissing }, world := missingWorld }

/- ------------------------------------------------------------------ -/
/- Theorems                                                            -/
/- ------------------------------------------------------------------ -/

/-- C1: for every candidate path whose canonicalised form is not prefixed
by the canonicalised challenge root, both `read_file_head` and
`extract_archive` return the failed RunResult with reason
"path escape blocked" and perform no filesystem read or spawn of the
target, regardless of how the path was constructed. -/
theorem C1_path_escape_blocked (cfg : RunnerCfg) (w : World) (relpath : String)
    (maxBytes timeoutS : Nat)
    (h : strStartsWith (w.fs.resolve (pathJoin cfg.challenge_dir relpath)) cfg.challenge_dir
          = false) :
    read_file_head cfg w relpath maxBytes =
      (Except.ok ⟨false, "", "path escape blocked", false, none⟩, []) ∧
    extract_archive cfg w relpath timeoutS =
      (Except.ok ⟨false, "", "path escape blocked", false, none⟩, []) := by
  constructor
  · simp [read_file_head, h]
  · simp [extract_archive, h]

/-- Witness for C1 at a concrete escaping path (a resolve that lands on
/etc/passwd). -/
theorem C1_path_escape_blocked_witness :
    strStartsWith (escWorld.fs.resolve (pathJoin cfgX.challenge_dir "../../etc/passwd"))
        cfgX.challenge_dir = false ∧
    read_file_head cfgX escWorld "../../etc/passwd" 250000 =
      (Except.ok ⟨false, "", "path escape blocked", false, none⟩, []) :=
  ⟨by decide,
   (C1_path_escape_blocked cfgX escWorld "../../etc/passwd" 250000 20 (by decide)).1⟩

/-- C3: a command whose first-token basename is outside the allowlist is
rejected by `runCmd` with the "cmd not allowed" reason, and no process is
spawned (empty effect list): the check precedes any spawning. -/
theorem C3_cmd_allowlist_gate (cfg : RunnerCfg) (w : World) (c0 : String) (rest : List String)
    (timeoutS : Nat) (cwdRel : Option String) (env : List (String × String))
    (h : pathName c0 ∉ cfg.cmd_allowlist) :
    runCmd cfg w (c0 :: rest) timeoutS cwdRel env =
      (Except.ok ⟨false, "", "cmd not allowed: " ++ pathName c0, false, none⟩, []) := by
  simp [runCmd, _check_cmd, h]

/-- Witness for C3: `sudo` is not in the default allowlist. -/
theorem C3_cmd_allowlist_gate_witness :
    pathName "sudo" ∉ cfgX.cmd_allowlist ∧
    runCmd cfgX trivWorld ["sudo", "ls"] 10 none [] =
      (Except.ok ⟨false, "", "cmd not allowed: " ++ pathName "sudo", false, none⟩, []) :=
  ⟨by decide, C3_cmd_allowlist_gate cfgX trivWorld "sudo" ["ls"] 10 none [] (by decide)⟩

/-- C7: an ok RunResult of `runCmd` with `timeout = true` has
`ok = false`, and its stdout/stderr are exactly the partial output the
spawn captured before expiry (`None` streams becoming empty strings) —
partial output is preserved, never discarded. -/
theorem C7_timeout_implies_failure_and_preserved_output (cfg : RunnerCfg) (w : World)
    (cmd : List String) (timeoutS : Nat) (cwdRel : Option String)
    (env : List (String × String)) (res : RunResult)
    (hres : (runCmd cfg w cmd timeoutS cwdRel env).1 = Except.ok res)
    (ht : res.timeout = true) :
    res.ok = false ∧
    ∃ o e, w.spawn ⟨cmd, timeoutS, cwdOf cfg cwdRel, mergeEnv w.baseEnv env⟩ =
        ProcOutcome.timedOut o e ∧
      res.stdout = o.getD "" ∧ res.stderr = e.getD "" := by
  simp only [runCmd] at hres
  cases hchk : (_check_cmd cfg cmd).1 with
  | false =>
    rw [hchk] at hres
    simp at hres
    subst hres
    simp at ht
  | true =>
    rw [hchk] at hres
    simp at hres
    cases hsp : w.spawn ⟨cmd, timeoutS, cwdOf cfg cwdRel, mergeEnv w.baseEnv env⟩ with
    | completed rc out err =>
      rw [hsp] at hres
      simp at hres
      subst hres
      simp at ht
    | timedOut o e =>
      rw [hsp] at hres
      simp at hres
      subst hres
      exact ⟨rfl, o, e, rfl, rfl, rfl⟩
    | raised m =>
      rw [hsp] at hres
      simp at hres

/-- Witness for C7: a spawn that times out with partial stdout. -/
theorem C7_timeout_implies_failure_and_preserved_output_witness :
    (runCmd cfgX timeoutWorld ["file", "x"] 1 none []).1 =
      Except.ok ⟨false, "partial out", "", true, none⟩ ∧
    (⟨false, "partial out", "", true, none⟩ : RunResult).ok = false ∧
    ∃ o e, timeoutWorld.spawn ⟨["file", "x"], 1, cwdOf cfgX none, mergeEnv timeoutWorld.baseEnv []⟩ =
        ProcOutcome.timedOut o e ∧
      (⟨false, "partial out", "", true, none⟩ : RunResult).stdout = o.getD "" ∧
      (⟨false, "partial out", "", true, none⟩ : RunResult).stderr = e.getD "" :=
  ⟨by decide,
   C7_timeout_implies_failure_and_preserved_output cfgX timeoutWorld ["file", "x"] 1 none []
     ⟨false, "partial out", "", true, none⟩ (by decide) rfl⟩

/-- C10: on a Linux host with installs allowed, apt present, a successful
apt update and every package allowlisted, `install` still fails with
"cmd not allowed: sudo" whenever `sudo` is not in the command allowlist,
because the final install command is routed through the `runCmd`
allowlist gate. -/
theorem C10_install_blocked_by_sudo_gate (cfg : RunnerCfg) (w : World)
    (packages : List String) (timeoutS : Nat)
    (h1 : cfg.allow_install = true)
    (h2 : ∀ p ∈ packages, p ∈ cfg.install_allowlist)
    (h3 : w.hostOS = "linux") (h4 : w.aptPresent = true)
    (o e : String)
    (h5 : w.rawRun ["sudo", "apt", "update"] = RawOutcome.completed 0 o e)
    (h6 : "sudo" ∉ cfg.cmd_allowlist) :
    (install cfg w packages timeoutS).1 =
      Except.ok ⟨false, "", "cmd not allowed: sudo", false, none⟩ := by
  have hname : pathName "sudo" = "sudo" := by decide
  have h2x : List.find? (fun p => !decide (p ∈ cfg.install_allowlist)) packages = none := by
    rw [List.find?_eq_none]
    intro x hx
    simp [h2 x hx]
  simp [install, h1, h2x, h3, h4, h5, runCmd, _check_cmd, hname, h6]

/-- Witness for C10: the default allowlist lacks `sudo`, so an allowed
install of `jq` on Linux fails at the gate. -/
theorem C10_install_blocked_by_sudo_gate_witness :
    cfgInstall.allow_install = true ∧
    "sudo" ∉ cfgInstall.cmd_allowlist ∧
    (install cfgInstall trivWorld ["jq"] 120).1 =
      Except.ok ⟨false, "", "cmd not allowed: sudo", false, none⟩ :=
  ⟨rfl, by decide,
   C10_install_blocked_by_sudo_gate cfgInstall trivWorld ["jq"] 120 rfl (by decide) rfl rfl
     "" "" rfl (by decide)⟩

/-- C2 counterexample: a Runner operation can raise past the Runner
boundary.  `read_file_head` on a path inside the root that does not exist
propagates the `FileNotFoundError` of `Path.read_bytes` (there is no
try/except in `LocalRunner`), instead of returning a RunResult — refuting
"for every input, the Runner never raises an uncaught exception past its
boundary". -/
theorem C2_runner_raises_cex :
    (read_file_head cfgX missingWorld "missing.txt" 250000).1 =
      Except.error "FileNotFoundError: missing.txt" := by decide

/-- C2 amended: failures the Runner itself detects come back as failed
RunResults, but OS-level exceptions escape the Runner; it is the
orchestration loop's per-step try/except that converts any such exception
into `RunResult(False, "", "execution error: ...")`, and the loop then
records the step as a failed execution in the step log. -/
theorem C2_loop_converts_runner_exceptions (cfg : RunnerCfg) (w : World) (a : ActionDesc)
    (m : String) (hraise : execAction cfg w a = Except.error m)
    (st : AgentState) (inp : StepInput)
    (hw : inp.world = w)
    (hh : inp.hacker = { flag := none, action := some a, note := none })
    (hm : mgrStopFlag inp.mgr = none) (hns : a.type ≠ some "stop") :
    execWrapped cfg w a = ⟨false, "", "execution error: " ++ m, false, none⟩ ∧
    (loopStep cfg inp st).1.steps =
      st.steps ++ [StepRec.execStep a false false none] := by
  have hx : execWrapped cfg w a = ⟨false, "", "execution error: " ++ m, false, none⟩ := by
    simp [execWrapped, hraise]
  refine ⟨hx, ?_⟩
  simp [loopStep, hm, hh, hackerDirectFlag, hns, hw, hx]

/-- Witness for the amended C2: the missing-file read raises inside the
runner and surfaces in the loop as a failed execution step. -/
theorem C2_loop_converts_runner_exceptions_witness :
    execWrapped cfgX missingWorld aMissing =
      ⟨false, "", "execution error: " ++ "FileNotFoundError: missing.txt", false, none⟩ ∧
    (loopStep cfgX inpMissing initState).1.steps =
      initState.steps ++ [StepRec.execStep aMissing false false none] :=
  C2_loop_converts_runner_exceptions cfgX missingWorld aMissing "FileNotFoundError: missing.txt"
    (by decide) initState inpMissing rfl rfl (by decide) (by decide)

/-- C8 counterexample: `validate_action` accepts a run-command descriptor
whose token sequence is the empty list (`isinstance(a.get("cmd"), list)`
does not require non-emptiness), refuting "rejects a run-command
descriptor without a non-empty command token sequence". -/
theorem C8_empty_cmd_accepted_cex :
    validate_action
        { type := some (JVal.jstr "run_cmd"), cmd := some (JVal.jlist []), code := none } =
      Except.ok () := by decide

/-- C8 amended: `validate_action` accepts a raw descriptor exactly when
its kind is a string in the fixed enumerated set, a run-command
descriptor carries a list (possibly empty) under `cmd`, and a run-script
(run_python) descriptor carries a string body under `code`; unknown kinds
and wrongly-shaped required fields are rejected.  Emptiness of the token
sequence is left to the Runner's `empty cmd` check. -/
theorem C8_validate_characterisation (a : RawAction) :
    validate_action a = Except.ok () ↔
      (jvalStrIn a.type ALLOWED_ACTIONS = true ∧
       (a.type = some (JVal.jstr "run_cmd") → isJList a.cmd = true) ∧
       (a.type = some (JVal.jstr "run_python") → isJStr a.code = true)) := by
  unfold validate_action
  by_cases h1 : jvalStrIn a.type ALLOWED_ACTIONS
  · by_cases h2 : a.type = some (JVal.jstr "run_cmd")
    · by_cases h3 : isJList a.cmd
      · simp [h1, h2, h3]
      · simp [h1, h2, h3]
        split <;> simp
    · by_cases h4 : a.type = some (JVal.jstr "run_python")
      · by_cases h5 : isJStr a.code
        · simp [h1, h2, h4, h5]
        · simp [h1, h2, h4, h5]
          split <;> simp
      · simp [h1, h2, h4]
  · simp [h1]

/-- Witness for the amended C8 at a concrete accepted descriptor. -/
theorem C8_validate_characterisation_witness :
    validate_action { type := some (JVal.jstr "read_file_head"), cmd := none, code := none } =
      Except.ok () :=
  (C8_validate_characterisation
    { type := some (JVal.jstr "read_file_head"), cmd := none, code := none }).mpr (by decide)

/-- Every iteration of the loop body appends exactly one record to the
step log. -/
theorem loopStep_steps_len (cfg : RunnerCfg) (inp : StepInput) (st : AgentState) :
    ((loopStep cfg inp st).1).steps.length = st.steps.length + 1 := by
  rcases hm : mgrStopFlag inp.mgr with _ | f
  · rcases hh : hackerDirectFlag inp.hacker with _ | f
    · by_cases ha : (inp.hacker.action.getD emptyAction).type = some "stop"
      · rcases hs : stopActionFlag (inp.hacker.action.getD emptyAction) with _ | f
        · simp [loopStep, hm, hh, ha, hs]
        · simp [loopStep, hm, hh, ha, hs]
      · rcases hf : (execWrapped cfg inp.world (inp.hacker.action.getD emptyAction)).flag
          with _ | f
        · simp [loopStep, hm, hh, ha, hf]
        · simp [loopStep, hm, hh, ha, hf]
    · simp [loopStep, hm, hh]
  · simp [loopStep, hm]

/-- No iteration of the loop body ever writes the `done` mapping. -/
theorem loopStep_done (cfg : RunnerCfg) (inp : StepInput) (st : AgentState) :
    ((loopStep cfg inp st).1).done = st.done := by
  rcases hm : mgrStopFlag inp.mgr with _ | f
  · rcases hh : hackerDirectFlag inp.hacker with _ | f
    · by_cases ha : (inp.hacker.action.getD emptyAction).type = some "stop"
      · rcases hs : stopActionFlag (inp.hacker.action.getD emptyAction) with _ | f
        · simp [loopStep, hm, hh, ha, hs]
        · simp [loopStep, hm, hh, ha, hs]
      · rcases hf : (execWrapped cfg inp.world (inp.hacker.action.getD emptyAction)).flag
          with _ | f
        · simp [loopStep, hm, hh, ha, hf]
        · simp [loopStep, hm, hh, ha, hf]
    · simp [loopStep, hm, hh]
  · simp [loopStep, hm]

/-- An iteration that does not break leaves `found_flag` unchanged: every
write of `found_flag` is immediately followed by `break` in the source. -/
theorem loopStep_continue_found (cfg : RunnerCfg) (inp : StepInput) (st : AgentState)
    (h : (loopStep cfg inp st).2 = false) :
    ((loopStep cfg inp st).1).found_flag = st.found_flag := by
  rcases hm : mgrStopFlag inp.mgr with _ | f
  · rcases hh : hackerDirectFlag inp.hacker with _ | f
    · by_cases ha : (inp.hacker.action.getD emptyAction).type = some "stop"
      · rcases hs : stopActionFlag (inp.hacker.action.getD emptyAction) with _ | f
        · simp [loopStep, hm, hh, ha, hs] at h
        · simp [loopStep, hm, hh, ha, hs] at h
      · rcases hf : (execWrapped cfg inp.world (inp.hacker.action.getD emptyAction)).flag
          with _ | f
        · simp [loopStep, hm, hh, ha, hf]
        · simp [loopStep, hm, hh, ha, hf] at h
    · simp [loopStep, hm, hh] at h
  · simp [loopStep, hm] at h

/-- A non-stopping input takes the continue path and preserves
`found_flag`. -/
theorem nonStopping_step (cfg : RunnerCfg) (inp : StepInput) (st : AgentState)
    (h : nonStopping cfg inp = true) :
    (loopStep cfg inp st).2 = false ∧
    ((loopStep cfg inp st).1).found_flag = st.found_flag := by
  unfold nonStopping at h
  simp only [Bool.and_eq_true, Option.isNone_iff_eq_none, Bool.not_eq_true',
    decide_eq_false_iff_not] at h
  obtain ⟨⟨⟨hm, hh⟩, ha⟩, hf⟩ := h
  constructor
  · simp [loopStep, hm, hh, ha, hf]
  · simp [loopStep, hm, hh, ha, hf]

/-- The final step log is bounded by the number of per-iteration inputs:
the loop performs at most `max_steps` iterations. -/
theorem loopRun_steps_le (cfg : RunnerCfg) (inputs : List StepInput) (st : AgentState) :
    (loopRun cfg inputs st).steps.length ≤ st.steps.length + inputs.length := by
  induction inputs generalizing st with
  | nil => simp [loopRun]
  | cons inp rest ih =>
    cases hb : (loopStep cfg inp st).2 with
    | true =>
      simp [loopRun, hb]
      have hlen := loopStep_steps_len cfg inp st
      omega
    | false =>
      simp only [loopRun, hb, Bool.false_eq_true, if_false]
      have h1 := ih (loopStep cfg inp st).1
      have hlen := loopStep_steps_len cfg inp st
      simp only [List.length_cons]
      omega

/-- If no input stops the loop, `found_flag` is preserved and the loop
runs one iteration per input. -/
theorem loopRun_nonstop (cfg : RunnerCfg) (inputs : List StepInput) (st : AgentState)
    (h : ∀ inp ∈ inputs, nonStopping cfg inp = true) :
    (loopRun cfg inputs st).found_flag = st.found_flag ∧
    (loopRun cfg inputs st).steps.length = st.steps.length + inputs.length := by
  induction inputs generalizing st with
  | nil => simp [loopRun]
  | cons inp rest ih =>
    have hn := h inp (by simp)
    obtain ⟨hb, hfound⟩ := nonStopping_step cfg inp st hn
    have hrest : ∀ i ∈ rest, nonStopping cfg i = true := fun i hi => h i (by simp [hi])
    obtain ⟨ih1, ih2⟩ := ih (loopStep cfg inp st).1 hrest
    have hlen := loopStep_steps_len cfg inp st
    constructor
    · simp only [loopRun, hb, Bool.false_eq_true, if_false]
      rw [ih1, hfound]
    · simp only [loopRun, hb, Bool.false_eq_true, if_false, List.length_cons]
      omega

/-- The loop never writes the `done` mapping, over any whole run. -/
theorem loopRun_done (cfg : RunnerCfg) (inputs : List StepInput) (st : AgentState) :
    (loopRun cfg inputs st).done = st.done := by
  induction inputs generalizing st with
  | nil => simp [loopRun]
  | cons inp rest ih =>
    cases hb : (loopStep cfg inp st).2 with
    | true => simp [loopRun, hb, loopStep_done]
    | false =>
      simp only [loopRun, hb, Bool.false_eq_true, if_false]
      rw [ih, loopStep_done]

/-- Every state of the trace except possibly the last keeps the initial
`found_flag`; with an initially unset flag, every intermediate state is
unset. -/
theorem loopTrace_inner_none (cfg : RunnerCfg) (inputs : List StepInput) (st : AgentState)
    (hst : st.found_flag = none) (i : Nat)
    (hi : i + 1 < (loopTrace cfg inputs st).length) :
    ((loopTrace cfg inputs st).getD i initState).found_flag = none := by
  induction inputs generalizing st i with
  | nil => simp [loopTrace] at hi
  | cons inp rest ih =>
    cases hb : (loopStep cfg inp st).2 with
    | true =>
      simp only [loopTrace, hb, if_true] at hi ⊢
      have hz : i = 0 := by simp at hi; omega
      subst hz
      simpa using hst
    | false =>
      simp only [loopTrace, hb, Bool.false_eq_true, if_false] at hi ⊢
      cases i with
      | zero => simpa using hst
      | succ k =>
        have hval : ((loopStep cfg inp st).1).found_flag = none := by
          rw [loopStep_continue_found cfg inp st hb, hst]
        simp only [List.getD_cons_succ]
        exact ih (loopStep cfg inp st).1 hval k (by simp at hi; omega)

/-- C4: `found_flag` is write-once over every execution trace: every write
(manager stop, direct hacker flag, stop action with flag, detected flag in
a RunResult) is immediately followed by `break`, so once any state of the
trace carries `some f`, every later state carries the same `some f`. -/
theorem C4_found_flag_write_once (cfg : RunnerCfg) (inputs : List StepInput) (f : String)
    (i j : Nat) (hij : i ≤ j) (hj : j < (loopTrace cfg inputs initState).length)
    (hset : ((loopTrace cfg inputs initState).getD i initState).found_flag = some f) :
    ((loopTrace cfg inputs initState).getD j initState).found_flag = some f := by
  by_cases hlast : i + 1 < (loopTrace cfg inputs initState).length
  · have hnone := loopTrace_inner_none cfg inputs initState rfl i hlast
    rw [hset] at hnone
    cases hnone
  · have hji : j = i := by omega
    subst hji
    exact hset

/-- Witness for C4 on a one-step trace whose stop action carries a flag. -/
theorem C4_found_flag_write_once_witness :
    1 ≤ 1 ∧ 1 < (loopTrace cfgX [inpStop] initState).length ∧
    ((loopTrace cfgX [inpStop] initState).getD 1 initState).found_flag = some "flag\x7bx\x7d" :=
  ⟨le_refl 1, by decide,
   C4_found_flag_write_once cfgX [inpStop] "flag\x7bx\x7d" 1 1 (le_refl 1) (by decide)
     (by decide)⟩

/-- C5 counterexample: a malformed (unknown-kind) decision is not terminal.
With a first input carrying the unknown action kind `open_portal` and a
second well-formed input, the session still performs the second iteration
(two step records), the first being logged as a failed execution — there
is no `STOPPED_INVALID_ACTION` transition and `validate_action` is never
consulted by the loop. -/
theorem C5_invalid_action_not_terminal_cex :
    (runSession cfgX [inpBogus, inpRead]).steps.length = 2 ∧
    (runSession cfgX [inpBogus, inpRead]).steps.getD 0 (StepRec.managerStop "") =
      StepRec.execStep bogusAction false false none ∧
    (runSession cfgX [inpBogus, inpRead]).found_flag = none := by decide

/-- C5 amended: an action whose kind is outside the handled set yields the
failed RunResult `unknown action.type: <kind>` recorded as that step's
execution result, and the iteration does not break — the loop continues
to the next iteration instead of entering a terminal invalid-action
state. -/
theorem C5_unknown_kind_continues (cfg : RunnerCfg) (inp : StepInput) (st : AgentState)
    (t : String) (hm : mgrStopFlag inp.mgr = none)
    (hh : hackerDirectFlag inp.hacker = none)
    (ha : (inp.hacker.action.getD emptyAction).type = some t)
    (hstop : t ≠ "stop") (hknown : t ∉ KNOWN_EXEC_TYPES) :
    execWrapped cfg inp.world (inp.hacker.action.getD emptyAction) =
      ⟨false, "", "unknown action.type: " ++ t, false, none⟩ ∧
    (loopStep cfg inp st).2 = false := by
  simp only [KNOWN_EXEC_TYPES, List.mem_cons, List.not_mem_nil, or_false, not_or] at hknown
  obtain ⟨k1, k2, k3, k4, k5, k6⟩ := hknown
  have hx : execWrapped cfg inp.world (inp.hacker.action.getD emptyAction) =
      ⟨false, "", "unknown action.type: " ++ t, false, none⟩ := by
    simp [execWrapped, execAction, ha, k1, k2, k3, k4, k5, k6]
  have ha2 : (inp.hacker.action.getD emptyAction).type ≠ some "stop" := by
    rw [ha]
    simp [hstop]
  exact ⟨hx, by simp [loopStep, hm, hh, ha2, hx]⟩

/-- Witness for the amended C5 at the concrete unknown kind
`open_portal`. -/
theorem C5_unknown_kind_continues_witness :
    execWrapped cfgX inpBogus.world (inpBogus.hacker.action.getD emptyAction) =
      ⟨false, "", "unknown action.type: " ++ "open_portal", false, none⟩ ∧
    (loopStep cfgX inpBogus initState).2 = false :=
  C5_unknown_kind_continues cfgX inpBogus initState "open_portal" (by decide) (by decide)
    (by decide) (by decide) (by decide)

/-- C6: the loop terminates after at most `max_steps` iterations (one step
record per iteration, never more records than inputs), and when no input
ever stops it and no flag is ever detected, the budget is exhausted with
`found_flag` unset. -/
theorem C6_max_steps_termination (cfg : RunnerCfg) (inputs : List StepInput) :
    (runSession cfg inputs).steps.length ≤ inputs.length ∧
    ((∀ inp ∈ inputs, nonStopping cfg inp = true) →
      (runSession cfg inputs).found_flag = none ∧
      (runSession cfg inputs).steps.length = inputs.length) := by
  constructor
  · have h := loopRun_steps_le cfg inputs initState
    simpa [runSession, initState] using h
  · intro h
    have hx := loopRun_nonstop cfg inputs initState h
    simpa [runSession, initState] using hx

/-- Witness for C6: a single non-stopping read leaves the flag unset and
uses the whole budget. -/
theorem C6_max_steps_termination_witness :
    (∀ inp ∈ [inpRead], nonStopping cfgX inp = true) ∧
    (runSession cfgX [inpRead]).found_flag = none ∧
    (runSession cfgX [inpRead]).steps.length = [inpRead].length :=
  ⟨by decide, (C6_max_steps_termination cfgX [inpRead]).2 (by decide)⟩

/-- C9 counterexample: executing the same (kind, target) pair twice leaves
the step log with both executions but the done mapping empty — the pair is
never recorded into any done-set, refuting "the loop records the step's
(kind, target) pair into the per-kind done-set". -/
theorem C9_no_done_set_cex :
    (runSession cfgX [inpRead, inpRead]).steps.length = 2 ∧
    (runSession cfgX [inpRead, inpRead]).done = [] ∧
    ("read_file_head", "a.txt") ∉ (runSession cfgX [inpRead, inpRead]).done := by decide

/-- C9 amended: every executed step appends exactly one record to the step
log (so repeated executions are each logged), but the loop maintains no
done-set at all: the state's done mapping is never written and stays empty
for every whole session.  The done-sets of the spec exist only as a read
(`state.get("done", {})`) in the rule-based Manager, which this loop never
populates. -/
theorem C9_step_log_no_done_set (cfg : RunnerCfg) (inp : StepInput) (st : AgentState) :
    ((loopStep cfg inp st).1).done = st.done ∧
    ((loopStep cfg inp st).1).steps.length = st.steps.length + 1 ∧
    ∀ inputs, (runSession cfg inputs).done = [] := by
  refine ⟨loopStep_done cfg inp st, loopStep_steps_len cfg inp st, fun inputs => ?_⟩
  have h := loopRun_done cfg inputs initState
  simpa [runSession, initState] using h
